import Mathlib

/-!
# Verification of the deal.II `Particles::Particle` / `PropertyPool` core

A shallow embedding of the particle-properties subsystem of the deal.II
finite-element library (`include/deal.II/particles/particle.h`), together
with a model of the `PropertyPool` arena it draws property storage from.

Modelling conventions:

* Property values are C++ `double`s that the code in question only ever
  copies byte-for-byte (serialization, deep copy, pool transfer); no
  arithmetic is performed on them.  We therefore model each value by its
  64-bit pattern as a `Nat`.
* A `PropertyPool<dim, spacedim>::Handle` is an opaque index into the
  pool's arena, or the sentinel `invalid_handle`; we model it as
  `Option Nat`, with `none` playing the role of `invalid_handle`.
* A particle stores a non-owning *pointer* to its pool.  To make pointer
  aliasing expressible (two particles bound to the same pool, or
  `set_property_pool` applied with the pool the particle is already bound
  to) pools live in an explicit store `List PropertyPool`, and a particle
  refers to its pool by index into that store.
* The boost archive of `save`/`load` is modelled as a flat stream of
  values (`List Nat`): `ar & x` appends on write and consumes from the
  front on read, which is exactly the observable behaviour of a binary
  archive for this code.
* Fatal `Assert`/exception failures are modelled with `Except Err`.
-/

/-- The fatal error conditions of this core, following §7 of the design
(invalid-handle errors, missing-pool precondition violations, and the
deserialization schema mismatch which reports both property counts). -/
inductive Err where
  | invalidHandle : Err
  | noPool : Err
  | streamExhausted : Err
  | schemaMismatch : Nat → Nat → Err
  deriving DecidableEq, Repr

/-- Modelled from the spec: `PropertyPool` (only its use sites appear in the
provided sources; `property_pool.h` itself does not).  A contiguous arena of
fixed-size property blocks addressed by opaque handles, with a free list of
released slots available for reuse.  `n_properties_per_slot` is fixed at
construction. -/
structure PropertyPool where
  n_properties_per_slot : Nat
  arena : List (List Nat)
  free_list : List Nat
  deriving DecidableEq, Repr

instance : Inhabited PropertyPool := ⟨⟨0, [], []⟩⟩

/-- A handle is live in a pool when it addresses an arena slot that has been
allocated and not yet released. -/
abbrev PropertyPool.live (pool : PropertyPool) (i : Nat) : Prop :=
  i < pool.arena.length ∧ i ∉ pool.free_list

/-- Modelled from the spec: `PropertyPool::allocate_properties_array`.
Returns a fresh handle backed by `n_properties_per_slot` zero-initialized
values, reusing a slot from the free list when one is available and growing
the arena otherwise. -/
def PropertyPool.allocate_properties_array (pool : PropertyPool) :
    PropertyPool × Nat :=
  match pool.free_list with
  | i :: rest =>
      ({ pool with
           arena := pool.arena.set i (List.replicate pool.n_properties_per_slot 0),
           free_list := rest },
       i)
  | [] =>
      ({ pool with
           arena := pool.arena ++ [List.replicate pool.n_properties_per_slot 0] },
       pool.arena.length)

/-- Modelled from the spec: `PropertyPool::deallocate_properties_array`.
Fails with an invalid-handle error if the handle is the sentinel or does not
address a live slot; otherwise returns the slot to the free list (the arena
is not shrunk). -/
def PropertyPool.deallocate_properties_array (pool : PropertyPool)
    (handle : Option Nat) : Except Err PropertyPool :=
  match handle with
  | none => .error .invalidHandle
  | some i =>
      if i < pool.arena.length ∧ i ∉ pool.free_list then
        .ok { pool with free_list := i :: pool.free_list }
      else .error .invalidHandle

/-- Modelled from the spec: `PropertyPool::get_properties`.  Returns the
fixed-length view into the handle's slot; fails if the handle is the
sentinel `invalid_handle`. -/
def PropertyPool.get_properties (pool : PropertyPool) (handle : Option Nat) :
    Except Err (List Nat) :=
  match handle with
  | none => .error .invalidHandle
  | some i => .ok (pool.arena.getD i [])

/-- Overwrite the contents of one arena slot (the effect of writing through
the mutable view returned by `PropertyPool::get_properties`). -/
def PropertyPool.set_slot (pool : PropertyPool) (i : Nat) (vals : List Nat) :
    PropertyPool :=
  { pool with arena := pool.arena.set i vals }

/-- A pool's free list only holds indices of existing arena slots. -/
abbrev PropertyPool.wf (pool : PropertyPool) : Prop :=
  ∀ i ∈ pool.free_list, i < pool.arena.length

/-- The state of a `Particles::Particle<dim, spacedim>`: physical location
(`spacedim` coordinate values), reference-cell location (`dim` values), the
particle id, the non-owning pool pointer (an index into the pool store, or
`none` for `nullptr`), and the property handle (`none` for
`invalid_handle`). -/
structure Particle where
  location : List Nat
  reference_location : List Nat
  id : Nat
  property_pool : Option Nat
  properties : Option Nat
  deriving DecidableEq, Repr

/-- Look a pool up in the pool store (dereference a pool pointer). -/
def getPool (pools : List PropertyPool) (pid : Nat) : PropertyPool :=
  pools.getD pid default

/-- `Particle::has_properties` (particle.h:641-647): the particle has a
non-null pool pointer and a handle different from `invalid_handle`. -/
def Particle.has_properties (p : Particle) : Bool :=
  p.property_pool.isSome && p.properties.isSome

/-- The property block a particle's handle addresses (`[]` when it has no
pool or no valid handle).  This is the value content behind every
`get_properties` view below. -/
def Particle.propView (pools : List PropertyPool) (p : Particle) : List Nat :=
  match p.property_pool, p.properties with
  | some pid, some i => (getPool pools pid).arena.getD i []
  | _, _ => []

/-- The `const` overload `Particle::get_properties` (particle.h:630-637):
asserts `has_properties()` and returns the pool's view of the handle. -/
def Particle.get_properties_const (pools : List PropertyPool) (p : Particle) :
    Except Err (List Nat) :=
  if p.has_properties then
    (getPool pools (p.property_pool.getD 0)).get_properties p.properties
  else .error .invalidHandle

/-- Modelled from the spec: the mutable overload `Particle::get_properties`
(declared at particle.h:402-403; its definition is not among the provided
sources).  It fails when no pool is bound; on a particle with a bound pool
but no existing allocation it lazily allocates a block from the pool before
returning the (now valid) view. -/
def Particle.get_properties_mut (pools : List PropertyPool) (p : Particle) :
    Except Err (List PropertyPool × Particle × List Nat) :=
  match p.property_pool with
  | none => .error .noPool
  | some pid =>
    match p.properties with
    | some i => .ok (pools, p, (getPool pools pid).arena.getD i [])
    | none =>
        let res := (getPool pools pid).allocate_properties_array
        let pools1 := pools.set pid res.1
        let p1 : Particle := { p with properties := some res.2 }
        .ok (pools1, p1, (getPool pools1 pid).arena.getD res.2 [])

/-- `ar & v` on write: append one value to the archive stream. -/
def archWrite (ar : List Nat) (v : Nat) : List Nat := ar ++ [v]

/-- `ar & make_array(data, n)` on write (also the serialization of a
`Point`, which writes its coordinate values): append a block of values. -/
def archWriteArray (ar : List Nat) (vs : List Nat) : List Nat := ar ++ vs

/-- `Particle::save` (particle.h:519-534): writes `location`,
`reference_location`, `id`, then `n_properties` (which is the size of the
property view when pool pointer and handle are valid and `0` otherwise),
and finally — only when `n_properties > 0` — the property values. -/
def Particle.save (pools : List PropertyPool) (p : Particle) (ar : List Nat) :
    List Nat :=
  let n_properties : Nat :=
    if p.property_pool.isSome && p.properties.isSome then
      (Particle.propView pools p).length
    else 0
  let ar1 :=
    archWrite
      (archWrite (archWriteArray (archWriteArray ar p.location)
                    p.reference_location)
         p.id)
      n_properties
  if 0 < n_properties then archWriteArray ar1 (Particle.propView pools p)
  else ar1

/-- Write values through the mutable `get_properties` view of a particle
(the effect of `ar & make_array(get_properties().data(), n)` on read, and of
`Particle::set_properties`): overwrite the particle's slot in its pool. -/
def Particle.writeProps (pools : List PropertyPool) (p : Particle)
    (vals : List Nat) : List PropertyPool :=
  match p.property_pool, p.properties with
  | some pid, some i => pools.set pid ((getPool pools pid).set_slot i vals)
  | _, _ => pools

/-- `Particle::load` (particle.h:491-515): reads `location`,
`reference_location`, `id` and `n_properties` from the archive; when
`n_properties > 0` it obtains the mutable property view (which lazily
allocates from the bound pool), asserts that the view's size equals
`n_properties` — the schema-mismatch error reporting both counts — and then
reads `n_properties` values into the view.  When `n_properties = 0` none of
that happens. -/
def Particle.load (dim spacedim : Nat) (pools : List PropertyPool)
    (p : Particle) (ar : List Nat) :
    Except Err (List PropertyPool × Particle × List Nat) :=
  if ar.length < spacedim + dim + 2 then .error .streamExhausted else
  let loc := ar.take spacedim
  let ar1 := ar.drop spacedim
  let ref := ar1.take dim
  let ar2 := ar1.drop dim
  let newId := ar2.getD 0 0
  let n_properties := ar2.getD 1 0
  let ar3 := ar2.drop 2
  let p1 : Particle :=
    { p with location := loc, reference_location := ref, id := newId }
  if 0 < n_properties then
    match Particle.get_properties_mut pools p1 with
    | .error e => .error e
    | .ok (pools1, p2, view) =>
        if view.length = n_properties then
          if ar3.length < n_properties then .error .streamExhausted
          else
            .ok (Particle.writeProps pools1 p2 (ar3.take n_properties), p2,
                 ar3.drop n_properties)
        else .error (.schemaMismatch n_properties view.length)
  else .ok (pools, p1, ar3)

/-- `Particle::set_property_pool` (particle.h:592-626), with the one
fallible primitive — the allocation in the new pool — made explicit through
`allocOk` (a C++ allocation failure raises before mutating anything).
Mirrors the source's three blocks: (1) if pool pointer and handle are valid,
allocate a block in the new pool and copy the current values over (the old
values are read *after* the allocation, as in the source); (2) release the
old handle in the old pool; (3) rebind the pool pointer and store the new
handle (the sentinel when nothing was copied).  The `Bool` of the result
records whether the call ran to completion; on failure the state at the
failure point is returned. -/
def Particle.set_property_pool_run (allocOk : Bool)
    (pools : List PropertyPool) (p : Particle) (new_pid : Nat) :
    (List PropertyPool × Particle) × Bool :=
  if p.property_pool.isSome && p.properties.isSome then
    if allocOk then
      let res := (getPool pools new_pid).allocate_properties_array
      let new_handle := res.2
      let pools1 := pools.set new_pid res.1
      let old_properties := Particle.propView pools1 p
      let pools2 :=
        pools1.set new_pid
          ((getPool pools1 new_pid).set_slot new_handle old_properties)
      let old_pid := p.property_pool.getD 0
      match (getPool pools2 old_pid).deallocate_properties_array
              p.properties with
      | .ok pool' =>
          ((pools2.set old_pid pool',
            { p with property_pool := some new_pid,
                     properties := some new_handle }),
           true)
      | .error _ => ((pools2, p), false)
    else ((pools, p), false)
  else
    ((pools, { p with property_pool := some new_pid, properties := none }),
     true)

/-- `Particle::set_property_pool` on the ordinary (allocation succeeds)
path. -/
def Particle.set_property_pool (pools : List PropertyPool) (p : Particle)
    (new_pid : Nat) : List PropertyPool × Particle :=
  (Particle.set_property_pool_run true pools p new_pid).1

/-- Modelled from the spec: the copy constructor
`Particle::Particle(const Particle &)` (declared at particle.h:175; its
definition is not among the provided sources).  Duplicates location,
reference location and id, keeps the same pool pointer, and — when the
source has properties — allocates a new handle in that same pool and
deep-copies the property values into it. -/
def Particle.copy (pools : List PropertyPool) (p : Particle) :
    List PropertyPool × Particle :=
  if p.has_properties then
    let pid := p.property_pool.getD 0
    let res := (getPool pools pid).allocate_properties_array
    let pools1 := pools.set pid res.1
    let vals := Particle.propView pools1 p
    let pools2 := pools1.set pid ((getPool pools1 pid).set_slot res.2 vals)
    (pools2, { p with properties := some res.2 })
  else (pools, p)

/-- Modelled from the spec: `Particle::set_properties` (declared at
particle.h:389-390; definition not among the provided sources): copies the
given values into the particle's property block in its pool. -/
def Particle.set_properties (pools : List PropertyPool) (p : Particle)
    (vals : List Nat) : List PropertyPool :=
  Particle.writeProps pools p vals

/-- Modelled from the spec: the move constructor
`Particle::Particle(Particle &&)` (declared at particle.h:200; definition
not among the provided sources).  The new particle takes over location,
reference location, id, pool pointer and handle; the moved-from particle's
handle is reset to `invalid_handle`.  The result is
`(moved-to particle, moved-from particle afterwards)`. -/
def Particle.move (p : Particle) : Particle × Particle :=
  ({ location := p.location, reference_location := p.reference_location,
     id := p.id, property_pool := p.property_pool,
     properties := p.properties },
   { p with properties := none })

/-- Whether a fallible operation ran without a fatal error. -/
def isOkE {α : Type} : Except Err α → Bool
  | .ok _ => true
  | .error _ => false

/-! ## Basic lemmas about the pool arena -/

lemma getD_set_eq {α : Type} (l : List α) (i : Nat) (a d : α)
    (h : i < l.length) : (l.set i a).getD i d = a := by
  simp [List.getD, List.getElem?_set, h]

lemma getD_set_ne {α : Type} (l : List α) (i j : Nat) (a d : α)
    (h : i ≠ j) : (l.set i a).getD j d = l.getD j d := by
  simp [List.getD, List.getElem?_set, h]

lemma getPool_set_eq (pools : List PropertyPool) (pid : Nat)
    (q : PropertyPool) (h : pid < pools.length) :
    getPool (pools.set pid q) pid = q :=
  getD_set_eq pools pid q default h

lemma getPool_set_ne (pools : List PropertyPool) (pid qid : Nat)
    (q : PropertyPool) (h : pid ≠ qid) :
    getPool (pools.set pid q) qid = getPool pools qid :=
  getD_set_ne pools pid qid q default h

/-- Everything `allocate_properties_array` guarantees on a well-formed pool:
the per-slot count is kept, the returned handle addresses a slot of the new
arena holding the zero-initialized block, the handle was not live before
(so it is fresh), live slots keep their contents and stay live, the arena
never shrinks, the free list only loses entries, and well-formedness is
preserved. -/
lemma allocate_spec (pool q : PropertyPool) (i : Nat)
    (heq : pool.allocate_properties_array = (q, i)) (hwf : pool.wf) :
    q.n_properties_per_slot = pool.n_properties_per_slot
  ∧ i < q.arena.length
  ∧ q.arena.getD i [] = List.replicate pool.n_properties_per_slot 0
  ∧ ¬ pool.live i
  ∧ (∀ j, pool.live j → q.arena.getD j [] = pool.arena.getD j [])
  ∧ (∀ j, pool.live j → q.live j)
  ∧ pool.arena.length ≤ q.arena.length
  ∧ (∀ x, x ∈ q.free_list → x ∈ pool.free_list)
  ∧ q.wf := by
  cases hfl : pool.free_list with
  | nil =>
      simp only [PropertyPool.allocate_properties_array, hfl] at heq
      injection heq with hq hi
      subst hq
      subst hi
      refine ⟨rfl, ?_, ?_, ?_, ?_, ?_, ?_, ?_, ?_⟩
      · simp
      · simp [List.getD, List.getElem?_append_right]
      · intro hlive
        exact absurd hlive.1 (by simp)
      · intro j hj
        simp [List.getD, List.getElem?_append_left hj.1]
      · intro j hj
        refine ⟨?_, by simp⟩
        simp only [List.length_append, List.length_singleton]
        omega
      · simp
      · intro x hx
        exact absurd hx (by simp)
      · intro x hx
        exact absurd hx (by simp)
  | cons a rest =>
      have ha : a < pool.arena.length :=
        hwf a (by rw [hfl]; exact List.mem_cons_self a rest)
      simp only [PropertyPool.allocate_properties_array, hfl] at heq
      injection heq with hq hi
      subst hq
      subst hi
      refine ⟨rfl, ?_, ?_, ?_, ?_, ?_, ?_, ?_, ?_⟩
      · simpa using ha
      · exact getD_set_eq _ _ _ _ ha
      · intro hlive
        exact hlive.2 (by rw [hfl]; exact List.mem_cons_self a rest)
      · intro j hj
        have hne : a ≠ j := by
          intro hcontra
          exact hj.2 (by rw [hfl, hcontra]; exact List.mem_cons_self j rest)
        exact getD_set_ne _ _ _ _ _ hne
      · intro j hj
        refine ⟨by simpa using hj.1, ?_⟩
        intro hmem
        exact hj.2 (by rw [hfl]; exact List.mem_cons_of_mem a hmem)
      · simp
      · intro x hx
        exact List.mem_cons_of_mem a hx
      · intro x hx
        have := hwf x (by rw [hfl]; exact List.mem_cons_of_mem a hx)
        simpa using this

/-! ## Claim theorems -/

/-- C7: Move construction transfers location, id, pool pointer, and property
handle to the destination and resets the source's handle to invalid, so
that after the move the source has `has_properties = false` and the
moved-to particle holds the original handle while the source holds none. -/
theorem c7_move_transfers_and_clears_source (p : Particle) :
    (Particle.move p).1 = p
  ∧ (Particle.move p).2.has_properties = false
  ∧ (Particle.move p).2.properties = none
  ∧ (Particle.move p).2.location = p.location
  ∧ (Particle.move p).2.reference_location = p.reference_location
  ∧ (Particle.move p).2.id = p.id
  ∧ (Particle.move p).2.property_pool = p.property_pool
  ∧ (Particle.move p).1.properties = p.properties := by
  refine ⟨?_, ?_, rfl, rfl, rfl, rfl, rfl, rfl⟩
  · cases p
    rfl
  · simp [Particle.move, Particle.has_properties]

/-- C1: the `const` `get_properties` succeeds exactly when `has_properties`
holds (for every particle, in particular for those with a bound pool); the
mutable `get_properties` succeeds exactly when a pool is bound — so it
fails when no pool is bound and no properties exist — and on a particle
with a bound pool but no existing allocation it lazily allocates from the
pool and returns a particle holding a valid handle. -/
theorem c1_has_properties_iff_get_properties_ok
    (pools : List PropertyPool) (p : Particle) :
    (isOkE (Particle.get_properties_const pools p) = p.has_properties)
  ∧ (isOkE (Particle.get_properties_mut pools p) = p.property_pool.isSome)
  ∧ (∀ pid : Nat, p.property_pool = some pid → p.properties = none →
      ∃ r, Particle.get_properties_mut pools p = .ok r
        ∧ r.2.1.properties.isSome = true
        ∧ r.2.1.property_pool = some pid) := by
  refine ⟨?_, ?_, ?_⟩
  · rcases hpp : p.property_pool with _ | pid <;>
      rcases hph : p.properties with _ | i <;>
      simp [Particle.get_properties_const, Particle.has_properties,
        PropertyPool.get_properties, isOkE, hpp, hph]
  · rcases hpp : p.property_pool with _ | pid <;>
      rcases hph : p.properties with _ | i <;>
      simp [Particle.get_properties_mut, isOkE, hpp, hph]
  · intro pid hpp hph
    rcases p with ⟨loc, ref, idv, pp, ph⟩
    obtain rfl : pp = some pid := hpp
    obtain rfl : ph = (none : Option Nat) := hph
    exact ⟨_, rfl, by simp, by simp⟩

/-- C1 witness: a particle bound to pool `0` with no allocation; the mutable
`get_properties` succeeds and hands back a particle with a valid handle. -/
theorem c1_witness :
    ∃ r, Particle.get_properties_mut [PropertyPool.mk 2 [] []]
          (Particle.mk [0] [0] 7 (some 0) none) = .ok r
      ∧ r.2.1.properties.isSome = true
      ∧ r.2.1.property_pool = some 0 :=
  (c1_has_properties_iff_get_properties_ok [PropertyPool.mk 2 [] []]
    (Particle.mk [0] [0] 7 (some 0) none)).2.2 0 rfl rfl

/-- The `n_properties` value computed at the top of `Particle::save`. -/
def saveCount (pools : List PropertyPool) (p : Particle) : Nat :=
  if p.property_pool.isSome && p.properties.isSome then
    (Particle.propView pools p).length
  else 0

/-- `Particle::save` from an empty archive produces exactly the header
followed by the count and the optional trailing block. -/
lemma save_spec (pools : List PropertyPool) (p : Particle) :
    Particle.save pools p []
      = p.location ++ p.reference_location ++ [p.id, saveCount pools p]
        ++ (if 0 < saveCount pools p then Particle.propView pools p
            else []) := by
  simp only [Particle.save, saveCount, archWrite, archWriteArray,
    List.nil_append]
  by_cases hc : (p.property_pool.isSome && p.properties.isSome) = true
  · simp only [hc, if_true]
    by_cases h0 : 0 < (Particle.propView pools p).length
    · simp [h0, List.append_assoc]
    · simp [h0, List.append_assoc]
  · simp [hc, List.append_assoc]

/-- C5: the archive-based `save` writes, in order, the location, the
reference location, the id, then `n_properties`, and then the property
block exactly when `n_properties > 0`; and `n_properties` is the
particle's property count when it has properties and `0` otherwise. -/
theorem c5_save_layout (pools : List PropertyPool) (p : Particle) :
    ∃ n : Nat,
      n = (if p.has_properties = true then (Particle.propView pools p).length
           else 0)
    ∧ Particle.save pools p []
        = p.location ++ p.reference_location ++ [p.id, n]
          ++ (if 0 < n then Particle.propView pools p else []) := by
  refine ⟨saveCount pools p, ?_, save_spec pools p⟩
  simp [saveCount, Particle.has_properties]

/-- C9: deserializing a record whose declared property count is zero
performs no allocation and no schema check: it succeeds, updates only
location, reference location and id, and leaves the pool store and the
particle's property state unchanged — whatever number of properties the
bound pool is configured for. -/
theorem c9_load_zero_count_skips_property_machinery
    (dim spacedim : Nat) (pools : List PropertyPool) (q : Particle)
    (loc ref : List Nat) (idv : Nat) (rest : List Nat)
    (hl : loc.length = spacedim) (hr : ref.length = dim) :
    Particle.load dim spacedim pools q (loc ++ (ref ++ idv :: 0 :: rest))
      = .ok (pools,
             { q with location := loc, reference_location := ref, id := idv },
             rest) := by
  have hlen : ¬ (loc ++ (ref ++ idv :: 0 :: rest)).length
      < spacedim + dim + 2 := by
    simp only [List.length_append, List.length_cons, hl, hr]
    omega
  simp only [Particle.load, hlen, if_false, List.take_left' hl,
    List.drop_left' hl, List.take_left' hr, List.drop_left' hr]
  simp [List.getD]

/-- C9 witness: a concrete zero-count record loaded into a particle bound
to a pool configured for three properties. -/
theorem c9_witness :
    Particle.load 1 1 [PropertyPool.mk 3 [] []]
        (Particle.mk [0] [0] 0 (some 0) none) ([5] ++ ([7] ++ 9 :: 0 :: []))
      = .ok ([PropertyPool.mk 3 [] []],
             Particle.mk [5] [7] 9 (some 0) none, []) :=
  c9_load_zero_count_skips_property_machinery 1 1 [PropertyPool.mk 3 [] []]
    (Particle.mk [0] [0] 0 (some 0) none) [5] [7] 9 [] rfl rfl

/-- The mutable `get_properties` on a particle with a bound pool and no
allocation: it allocates a block from that pool and returns the updated
store, the updated particle, and the view of the fresh block. -/
lemma get_properties_mut_none (pools : List PropertyPool) (p : Particle)
    (pid : Nat) (hpp : p.property_pool = some pid)
    (hph : p.properties = none) :
    Particle.get_properties_mut pools p
      = .ok (pools.set pid ((getPool pools pid).allocate_properties_array).1,
             { p with properties := some ((getPool pools pid).allocate_properties_array).2 },
             (getPool (pools.set pid ((getPool pools pid).allocate_properties_array).1) pid).arena.getD ((getPool pools pid).allocate_properties_array).2 []) := by
  rcases p with ⟨loc, ref, idv, pp, ph⟩
  obtain rfl : pp = some pid := hpp
  obtain rfl : ph = (none : Option Nat) := hph
  rfl

/-- `Particle::load` after the archive header has been parsed: the record
is the header followed by `idv`, the count `n` and the remaining stream. -/
lemma load_parse (dim spacedim : Nat) (pools : List PropertyPool)
    (q : Particle) (loc ref : List Nat) (idv n : Nat) (rest : List Nat)
    (hl : loc.length = spacedim) (hr : ref.length = dim) :
    Particle.load dim spacedim pools q (loc ++ (ref ++ idv :: n :: rest))
      = (if 0 < n then
           match Particle.get_properties_mut pools
               { q with location := loc, reference_location := ref,
                        id := idv } with
           | .error e => .error e
           | .ok (pools1, p2, view) =>
               if view.length = n then
                 if rest.length < n then .error .streamExhausted
                 else .ok (Particle.writeProps pools1 p2 (rest.take n), p2,
                           rest.drop n)
               else .error (.schemaMismatch n view.length)
         else .ok (pools,
                   { q with location := loc, reference_location := ref,
                            id := idv },
                   rest)) := by
  have hlen : ¬ (loc ++ (ref ++ idv :: n :: rest)).length
      < spacedim + dim + 2 := by
    simp only [List.length_append, List.length_cons, hl, hr]
    omega
  simp only [Particle.load, hlen, if_false, List.take_left' hl,
    List.drop_left' hl, List.take_left' hr, List.drop_left' hr]
  simp [List.getD]

/-- C4 counterexample: a record declaring zero properties, loaded into a
particle bound to a pool configured for one property per slot.  The
serialized count (0) differs from the pool's configured count (1), yet
`load` succeeds without any error — refuting the claim as stated. -/
theorem c4_counterexample :
    (getPool [PropertyPool.mk 1 [] []] 0).n_properties_per_slot ≠ 0
  ∧ Particle.load 1 1 [PropertyPool.mk 1 [] []]
      (Particle.mk [0] [0] 0 (some 0) none) [5, 7, 9, 0]
      = .ok ([PropertyPool.mk 1 [] []],
             Particle.mk [5] [7] 9 (some 0) none, []) :=
  ⟨by decide, rfl⟩

/-- C4 (amended): when the serialized record declares a strictly positive
property count `n` that differs from the property count the bound pool
provides space for, `load` fails with the fatal schema-mismatch error
carrying both counts; a declared count of zero skips the check entirely. -/
theorem c4_schema_mismatch_reports_both_counts
    (dim spacedim : Nat) (qpools : List PropertyPool) (q : Particle)
    (qpid : Nat) (loc ref : List Nat) (idv n : Nat) (rest : List Nat)
    (hl : loc.length = spacedim) (hr : ref.length = dim)
    (hq : q.property_pool = some qpid) (hqh : q.properties = none)
    (hqlt : qpid < qpools.length)
    (hwf : (getPool qpools qpid).wf)
    (hn : 0 < n)
    (hmm : (getPool qpools qpid).n_properties_per_slot ≠ n) :
    Particle.load dim spacedim qpools q (loc ++ (ref ++ idv :: n :: rest))
      = .error (.schemaMismatch n
          (getPool qpools qpid).n_properties_per_slot) := by
  rw [load_parse dim spacedim qpools q loc ref idv n rest hl hr, if_pos hn,
    get_properties_mut_none qpools _ qpid (by simp [hq]) (by simp [hqh])]
  obtain ⟨hcnt, hlt, hview, -⟩ :=
    allocate_spec (getPool qpools qpid) _ _ Prod.mk.eta.symm hwf
  rw [getPool_set_eq _ _ _ hqlt]
  simp only [hview, List.length_replicate]
  rw [if_neg hmm]

/-- C4 witness for the amended claim: declared count 1 against a pool
configured for 2 properties; `load` reports both counts in the error. -/
theorem c4_witness :
    Particle.load 1 1 [PropertyPool.mk 2 [] []]
        (Particle.mk [0] [0] 0 (some 0) none) ([5] ++ ([7] ++ 9 :: 1 :: [4]))
      = .error (.schemaMismatch 1 2) :=
  c4_schema_mismatch_reports_both_counts 1 1 [PropertyPool.mk 2 [] []]
    (Particle.mk [0] [0] 0 (some 0) none) 0 [5] [7] 9 1 [4]
    rfl rfl rfl rfl (by decide) (by decide) (by decide) (by decide)

/-- A written property count of zero means the particle's property view is
empty (either the pool/handle pair is not valid, or the slot is empty). -/
lemma propView_eq_nil_of_count_zero (pools : List PropertyPool) (p : Particle)
    (h : saveCount pools p = 0) : Particle.propView pools p = [] := by
  unfold saveCount at h
  by_cases hc : (p.property_pool.isSome && p.properties.isSome) = true
  · rw [if_pos hc] at h
    exact List.length_eq_zero.mp h
  · rcases hpp : p.property_pool with _ | pid
    · simp [Particle.propView, hpp]
    · rcases hph : p.properties with _ | i
      · simp [Particle.propView, hpp, hph]
      · simp [hpp, hph] at hc

/-- C3: serialization round-trip.  Loading the stream produced by `save`
into a fresh particle bound to a pool whose configured property count
equals the source particle's property count consumes the stream exactly
and reproduces location, reference location, id, and the property values
unchanged (values are only copied, never transformed). -/
theorem c3_serialize_roundtrip
    (dim spacedim : Nat) (pools qpools : List PropertyPool)
    (p q : Particle) (qpid : Nat)
    (hl : p.location.length = spacedim)
    (hr : p.reference_location.length = dim)
    (hq : q.property_pool = some qpid) (hqh : q.properties = none)
    (hqlt : qpid < qpools.length)
    (hwf : (getPool qpools qpid).wf)
    (hcount : (getPool qpools qpid).n_properties_per_slot
        = (Particle.propView pools p).length) :
    ∃ qpools' q',
      Particle.load dim spacedim qpools q (Particle.save pools p [])
        = .ok (qpools', q', [])
      ∧ q'.location = p.location
      ∧ q'.reference_location = p.reference_location
      ∧ q'.id = p.id
      ∧ Particle.propView qpools' q' = Particle.propView pools p := by
  obtain ⟨qloc, qref, qidv, qpp, qph⟩ := q
  obtain rfl : qpp = some qpid := hq
  obtain rfl : qph = (none : Option Nat) := hqh
  have hsave := save_spec pools p
  by_cases hn : 0 < saveCount pools p
  · -- a positive property count: the trailing block is written and read back
    have hnv : saveCount pools p = (Particle.propView pools p).length := by
      unfold saveCount
      by_cases hc : (p.property_pool.isSome && p.properties.isSome) = true
      · rw [if_pos hc]
      · exfalso
        unfold saveCount at hn
        rw [if_neg hc] at hn
        exact Nat.lt_irrefl 0 hn
    rw [if_pos hn] at hsave
    have hassoc : p.location ++ p.reference_location
          ++ [p.id, saveCount pools p] ++ Particle.propView pools p
        = p.location ++ (p.reference_location
            ++ p.id :: saveCount pools p :: Particle.propView pools p) := by
      simp [List.append_assoc]
    rw [hsave, hassoc,
      load_parse dim spacedim qpools _ p.location p.reference_location p.id
        (saveCount pools p) (Particle.propView pools p) hl hr, if_pos hn,
      get_properties_mut_none qpools _ qpid rfl rfl]
    rw [getPool_set_eq _ _ _ hqlt]
    obtain ⟨hcnt, hlt, hview2, -⟩ :=
      allocate_spec (getPool qpools qpid) _ _ Prod.mk.eta.symm hwf
    simp only [hview2, List.length_replicate, hcount, ← hnv, if_pos rfl,
      Nat.lt_irrefl, if_false, if_true]
    rw [hnv, List.take_length, List.drop_length]
    refine ⟨_, _, rfl, rfl, rfl, rfl, ?_⟩
    simp only [Particle.writeProps, Particle.propView, PropertyPool.set_slot]
    rw [getPool_set_eq _ _ _ (by simpa using hqlt), getPool_set_eq _ _ _ hqlt]
    exact getD_set_eq _ _ _ _ hlt
  · -- count zero: no trailing block, no property machinery on load
    have hn0 : saveCount pools p = 0 := Nat.eq_zero_of_not_pos hn
    have hview : Particle.propView pools p = [] :=
      propView_eq_nil_of_count_zero pools p hn0
    rw [if_neg hn] at hsave
    rw [hn0] at hsave
    have hassoc : p.location ++ p.reference_location ++ [p.id, 0] ++ []
        = p.location ++ (p.reference_location ++ p.id :: 0 :: []) := by
      simp [List.append_assoc]
    rw [hsave, hassoc,
      load_parse dim spacedim qpools _ p.location p.reference_location p.id
        0 [] hl hr]
    simp only [Nat.lt_irrefl, if_false]
    refine ⟨qpools, _, rfl, rfl, rfl, rfl, ?_⟩
    simpa [Particle.propView] using hview

/-- C3 witness: a two-property particle saved and loaded back through a
fresh pool configured for two properties. -/
theorem c3_witness :
    ∃ qpools' q',
      Particle.load 1 1 [PropertyPool.mk 2 [] []]
          (Particle.mk [0] [0] 0 (some 0) none)
          (Particle.save [PropertyPool.mk 2 [[10, 20]] []]
             (Particle.mk [1] [2] 3 (some 0) (some 0)) [])
        = .ok (qpools', q', [])
      ∧ q'.location = (Particle.mk [1] [2] 3 (some 0) (some 0)).location
      ∧ q'.reference_location
          = (Particle.mk [1] [2] 3 (some 0) (some 0)).reference_location
      ∧ q'.id = (Particle.mk [1] [2] 3 (some 0) (some 0)).id
      ∧ Particle.propView qpools' q'
          = Particle.propView [PropertyPool.mk 2 [[10, 20]] []]
              (Particle.mk [1] [2] 3 (some 0) (some 0)) :=
  c3_serialize_roundtrip 1 1 [PropertyPool.mk 2 [[10, 20]] []]
    [PropertyPool.mk 2 [] []] (Particle.mk [1] [2] 3 (some 0) (some 0))
    (Particle.mk [0] [0] 0 (some 0) none) 0
    rfl rfl rfl rfl (by decide) (by decide) (by decide)

/-- Releasing a live handle succeeds and pushes its slot onto the free
list. -/
lemma deallocate_ok (pool : PropertyPool) (i : Nat) (hl : pool.live i) :
    pool.deallocate_properties_array (some i)
      = .ok { pool with free_list := i :: pool.free_list } := by
  simp only [PropertyPool.deallocate_properties_array]
  rw [if_pos hl]

/-- The complete success path of `Particle::set_property_pool` on a
particle that owns properties: a handle is freshly allocated in the target
pool (it was not live there before), the property values are copied into
it, the old handle is released back into the old pool, and the particle is
rebound — covering the aliasing case where the target pool is the
particle's current pool. -/
lemma set_property_pool_success (pools : List PropertyPool) (p : Particle)
    (new_pid pid h : Nat)
    (hpp : p.property_pool = some pid) (hph : p.properties = some h)
    (hpid : pid < pools.length) (hnew : new_pid < pools.length)
    (hlive : (getPool pools pid).live h)
    (hwf : (getPool pools new_pid).wf) :
    ∃ h' pools',
      Particle.set_property_pool_run true pools p new_pid
        = ((pools', { p with property_pool := some new_pid, properties := some h' }), true)
      ∧ ¬ (getPool pools new_pid).live h'
      ∧ Particle.propView pools' { p with property_pool := some new_pid, properties := some h' }
          = Particle.propView pools p
      ∧ h ∈ (getPool pools' pid).free_list := by
  obtain ⟨loc, ref, idv, pp, ph⟩ := p
  obtain rfl : pp = some pid := hpp
  obtain rfl : ph = some h := hph
  obtain ⟨hcnt, hlt, hview, hnotlive, hpres, hlivepres, hlen, hsub, hwf2⟩ :=
    allocate_spec (getPool pools new_pid) _ _ Prod.mk.eta.symm hwf
  simp only [Particle.set_property_pool_run, Option.isSome_some,
    Bool.and_self, eq_self_iff_true, if_true, Option.getD_some]
  by_cases hc : new_pid = pid
  · subst hc
    have hold : Particle.propView
          (pools.set new_pid ((getPool pools new_pid).allocate_properties_array).1)
          (Particle.mk loc ref idv (some new_pid) (some h))
        = Particle.propView pools (Particle.mk loc ref idv (some new_pid) (some h)) := by
      simp only [Particle.propView]
      rw [getPool_set_eq _ _ _ hnew]
      exact hpres h hlive
    rw [hold, getPool_set_eq _ _ _ hnew,
      getPool_set_eq _ _ _ (show new_pid < (pools.set new_pid ((getPool pools new_pid).allocate_properties_array).1).length by simpa using hnew)]
    have hliveB : (((getPool pools new_pid).allocate_properties_array).1.set_slot
        ((getPool pools new_pid).allocate_properties_array).2
        (Particle.propView pools (Particle.mk loc ref idv (some new_pid) (some h)))).live h := by
      constructor
      · simp only [PropertyPool.set_slot, List.length_set]
        exact Nat.lt_of_lt_of_le hlive.1 hlen
      · intro hm
        exact hlive.2 (hsub h hm)
    rw [deallocate_ok _ _ hliveB]
    refine ⟨((getPool pools new_pid).allocate_properties_array).2, _, rfl,
      hnotlive, ?_, ?_⟩
    · simp only [Particle.propView]
      rw [getPool_set_eq _ _ _ (by simpa using hnew)]
      simp only [PropertyPool.set_slot]
      exact getD_set_eq _ _ _ _ hlt
    · rw [getPool_set_eq _ _ _ (by simpa using hnew)]
      exact List.mem_cons_self _ _
  · have hne : new_pid ≠ pid := hc
    have hold : Particle.propView
          (pools.set new_pid ((getPool pools new_pid).allocate_properties_array).1)
          (Particle.mk loc ref idv (some pid) (some h))
        = Particle.propView pools (Particle.mk loc ref idv (some pid) (some h)) := by
      simp only [Particle.propView]
      rw [getPool_set_ne _ _ _ _ hne]
    rw [hold, getPool_set_eq _ _ _ hnew, getPool_set_ne _ _ _ _ hne,
      getPool_set_ne _ _ _ _ hne, deallocate_ok _ _ hlive]
    refine ⟨((getPool pools new_pid).allocate_properties_array).2, _, rfl,
      hnotlive, ?_, ?_⟩
    · simp only [Particle.propView]
      rw [getPool_set_ne _ _ _ _ (Ne.symm hne), getPool_set_eq _ _ _ (by simpa using hnew)]
      simp only [PropertyPool.set_slot]
      exact getD_set_eq _ _ _ _ hlt
    · rw [getPool_set_eq _ _ _ (by simpa using hpid)]
      exact List.mem_cons_self _ _

/-- C2: `set_property_pool` is atomic from the caller's perspective.  If
the allocation in the new pool fails, the particle and every pool are
exactly as before (the old handle was not yet released).  On success a new
handle was allocated in the new pool and the values copied into it, and
only then was the old handle released (it ends up on the old pool's free
list) and the particle rebound; the particle's property values afterwards
are unchanged. -/
theorem c2_set_property_pool_atomic (pools : List PropertyPool) (p : Particle)
    (new_pid pid h : Nat)
    (hpp : p.property_pool = some pid) (hph : p.properties = some h)
    (hpid : pid < pools.length) (hnew : new_pid < pools.length)
    (hlive : (getPool pools pid).live h)
    (hwf : (getPool pools new_pid).wf) :
    Particle.set_property_pool_run false pools p new_pid = ((pools, p), false)
  ∧ ∃ h' pools',
      Particle.set_property_pool_run true pools p new_pid
        = ((pools', { p with property_pool := some new_pid, properties := some h' }), true)
      ∧ Particle.propView pools' { p with property_pool := some new_pid, properties := some h' }
          = Particle.propView pools p
      ∧ h ∈ (getPool pools' pid).free_list := by
  constructor
  · rcases p with ⟨loc, ref, idv, pp, ph⟩
    obtain rfl : pp = some pid := hpp
    obtain rfl : ph = some h := hph
    simp [Particle.set_property_pool_run]
  · obtain ⟨h', pools', heq, -, hvals, hfree⟩ :=
      set_property_pool_success pools p new_pid pid h hpp hph hpid hnew hlive hwf
    exact ⟨h', pools', heq, hvals, hfree⟩

/-- C2 witness: a one-pool store, rebinding a two-property particle to its
own pool. -/
theorem c2_witness :
    Particle.set_property_pool_run false [PropertyPool.mk 2 [[10, 20]] []]
        (Particle.mk [1] [2] 3 (some 0) (some 0)) 0
      = (([PropertyPool.mk 2 [[10, 20]] []],
          Particle.mk [1] [2] 3 (some 0) (some 0)), false)
  ∧ ∃ h' pools',
      Particle.set_property_pool_run true [PropertyPool.mk 2 [[10, 20]] []]
          (Particle.mk [1] [2] 3 (some 0) (some 0)) 0
        = ((pools', { Particle.mk [1] [2] 3 (some 0) (some 0) with property_pool := some 0, properties := some h' }), true)
      ∧ Particle.propView pools' { Particle.mk [1] [2] 3 (some 0) (some 0) with property_pool := some 0, properties := some h' }
          = Particle.propView [PropertyPool.mk 2 [[10, 20]] []]
              (Particle.mk [1] [2] 3 (some 0) (some 0))
      ∧ 0 ∈ (getPool pools' 0).free_list :=
  c2_set_property_pool_atomic [PropertyPool.mk 2 [[10, 20]] []]
    (Particle.mk [1] [2] 3 (some 0) (some 0)) 0 0 0 rfl rfl
    (by decide) (by decide) (by decide) (by decide)

/-- C10: `set_property_pool` on a particle that owns properties always
allocates a fresh handle in the target pool (one that was not live there)
and copies the values — even when the target pool is the pool the particle
is already bound to, in which case the handle value necessarily changes —
while the property values are preserved; on a particle without an
allocation it only rebinds the pool pointer, the handle stays invalid and
no pool is touched. -/
theorem c10_set_property_pool_always_fresh (pools : List PropertyPool)
    (p : Particle) (new_pid : Nat) :
    (p.properties = none →
       Particle.set_property_pool pools p new_pid
         = (pools, { p with property_pool := some new_pid, properties := none }))
  ∧ (∀ pid h, p.property_pool = some pid → p.properties = some h →
       pid < pools.length → new_pid < pools.length →
       (getPool pools pid).live h → (getPool pools new_pid).wf →
       ∃ h' pools',
         Particle.set_property_pool pools p new_pid
           = (pools', { p with property_pool := some new_pid, properties := some h' })
         ∧ ¬ (getPool pools new_pid).live h'
         ∧ (new_pid = pid → h' ≠ h)
         ∧ Particle.propView pools' { p with property_pool := some new_pid, properties := some h' }
             = Particle.propView pools p) := by
  constructor
  · intro hph
    rcases p with ⟨loc, ref, idv, pp, ph⟩
    obtain rfl : ph = (none : Option Nat) := hph
    simp [Particle.set_property_pool, Particle.set_property_pool_run]
  · intro pid h hpp hph hpid hnew hlive hwf
    obtain ⟨h', pools', heq, hnl, hvals, -⟩ :=
      set_property_pool_success pools p new_pid pid h hpp hph hpid hnew hlive hwf
    refine ⟨h', pools', ?_, hnl, ?_, hvals⟩
    · unfold Particle.set_property_pool
      rw [heq]
    · intro hceq hcontra
      subst hceq
      subst hcontra
      exact hnl hlive

/-- C10 witness: rebinding to the same pool; the handle moves from slot 0
to a fresh slot while the values `[10, 20]` are preserved. -/
theorem c10_witness :
    ∃ h' pools',
      Particle.set_property_pool [PropertyPool.mk 2 [[10, 20]] []]
          (Particle.mk [1] [2] 3 (some 0) (some 0)) 0
        = (pools', { Particle.mk [1] [2] 3 (some 0) (some 0) with property_pool := some 0, properties := some h' })
      ∧ ¬ (getPool [PropertyPool.mk 2 [[10, 20]] []] 0).live h'
      ∧ (0 = 0 → h' ≠ 0)
      ∧ Particle.propView pools' { Particle.mk [1] [2] 3 (some 0) (some 0) with property_pool := some 0, properties := some h' }
          = Particle.propView [PropertyPool.mk 2 [[10, 20]] []]
              (Particle.mk [1] [2] 3 (some 0) (some 0)) :=
  (c10_set_property_pool_always_fresh [PropertyPool.mk 2 [[10, 20]] []]
    (Particle.mk [1] [2] 3 (some 0) (some 0)) 0).2 0 0 rfl rfl
    (by decide) (by decide) (by decide) (by decide)

/-- C6: the copy constructor duplicates location, reference location, id
and pool pointer; when the source has properties it allocates a fresh
handle in the same pool — necessarily distinct from the source's handle,
since no two live particles ever observe the same handle value — and
deep-copies the values, leaving the source's block untouched; mutating the
copy's properties afterwards never changes the source's properties. -/
theorem c6_copy_independence (pools : List PropertyPool) (p : Particle)
    (pid h : Nat)
    (hpp : p.property_pool = some pid) (hph : p.properties = some h)
    (hpid : pid < pools.length)
    (hlive : (getPool pools pid).live h)
    (hwf : (getPool pools pid).wf) :
    ∃ pools' q h',
      Particle.copy pools p = (pools', q)
    ∧ q.location = p.location
    ∧ q.reference_location = p.reference_location
    ∧ q.id = p.id
    ∧ q.property_pool = p.property_pool
    ∧ q.properties = some h'
    ∧ h' ≠ h
    ∧ Particle.propView pools' q = Particle.propView pools p
    ∧ Particle.propView pools' p = Particle.propView pools p
    ∧ (∀ vals, Particle.propView (Particle.set_properties pools' q vals) p
        = Particle.propView pools' p) := by
  obtain ⟨loc, ref, idv, pp, ph⟩ := p
  obtain rfl : pp = some pid := hpp
  obtain rfl : ph = some h := hph
  obtain ⟨hcnt, hlt, hview, hnotlive, hpres, hlivepres, hlen, hsub, hwf2⟩ :=
    allocate_spec (getPool pools pid) _ _ Prod.mk.eta.symm hwf
  simp only [Particle.copy, Particle.has_properties, Option.isSome_some,
    Bool.and_self, if_true, Option.getD_some]
  have hold : Particle.propView
        (pools.set pid ((getPool pools pid).allocate_properties_array).1)
        (Particle.mk loc ref idv (some pid) (some h))
      = Particle.propView pools (Particle.mk loc ref idv (some pid) (some h)) := by
    simp only [Particle.propView]
    rw [getPool_set_eq _ _ _ hpid]
    exact hpres h hlive
  rw [hold, getPool_set_eq _ _ _ hpid]
  have hne : ((getPool pools pid).allocate_properties_array).2 ≠ h :=
    fun hcontra => hnotlive (hcontra ▸ hlive)
  refine ⟨_, _, ((getPool pools pid).allocate_properties_array).2,
    rfl, rfl, rfl, rfl, rfl, rfl, hne, ?_, ?_, ?_⟩
  · simp only [Particle.propView]
    rw [getPool_set_eq _ _ _ (by simpa using hpid)]
    simp only [PropertyPool.set_slot]
    exact getD_set_eq _ _ _ _ hlt
  · simp only [Particle.propView]
    rw [getPool_set_eq _ _ _ (by simpa using hpid)]
    simp only [PropertyPool.set_slot]
    rw [getD_set_ne _ _ _ _ _ hne]
    exact hpres h hlive
  · intro vals
    simp only [Particle.set_properties, Particle.writeProps, Particle.propView]
    rw [getPool_set_eq _ _ _ (by simpa using hpid)]
    simp only [PropertyPool.set_slot]
    rw [getD_set_ne _ _ _ _ _ hne]

/-- C6 witness: copying a two-property particle in a one-pool store. -/
theorem c6_witness :
    ∃ pools' q h',
      Particle.copy [PropertyPool.mk 2 [[10, 20]] []]
          (Particle.mk [1] [2] 3 (some 0) (some 0)) = (pools', q)
    ∧ q.location = (Particle.mk [1] [2] 3 (some 0) (some 0)).location
    ∧ q.reference_location
        = (Particle.mk [1] [2] 3 (some 0) (some 0)).reference_location
    ∧ q.id = (Particle.mk [1] [2] 3 (some 0) (some 0)).id
    ∧ q.property_pool
        = (Particle.mk [1] [2] 3 (some 0) (some 0)).property_pool
    ∧ q.properties = some h'
    ∧ h' ≠ 0
    ∧ Particle.propView pools' q
        = Particle.propView [PropertyPool.mk 2 [[10, 20]] []]
            (Particle.mk [1] [2] 3 (some 0) (some 0))
    ∧ Particle.propView pools' (Particle.mk [1] [2] 3 (some 0) (some 0))
        = Particle.propView [PropertyPool.mk 2 [[10, 20]] []]
            (Particle.mk [1] [2] 3 (some 0) (some 0))
    ∧ (∀ vals, Particle.propView (Particle.set_properties pools' q vals)
          (Particle.mk [1] [2] 3 (some 0) (some 0))
        = Particle.propView pools' (Particle.mk [1] [2] 3 (some 0) (some 0))) :=
  c6_copy_independence [PropertyPool.mk 2 [[10, 20]] []]
    (Particle.mk [1] [2] 3 (some 0) (some 0)) 0 0 rfl rfl
    (by decide) (by decide) (by decide)
